import Mathlib

/-!
Shallow embedding of `src/scraper_247_python.py` (class `ContinuousWillhabenScraper`).

Modelling conventions:
* BeautifulSoup detail-page documents are abstracted as `Doc`: `selectOne sel`
  is `soup.select_one(sel)` returning the element's text (`some t`, possibly
  empty) or `none` when no element matches; `fullText` is `soup.get_text()`.
* Search-result pages are abstracted as `SearchPage`: a document-ordered list
  of anchors, each carrying its `href` attribute (`""` when absent), its
  `data-testid` attribute, and whether it sits inside a `.result-item` element.
* The HTTP transport is an environment `env : String → Option Response`;
  `none` models a transport exception (caught by the Python code),
  `some r` carries the status code and both parses of the body.
* Python's `re` matching for the three fixed patterns of the file is embedded
  as explicit leftmost-match backtracking scanners over `List Char`, mirroring
  greedy quantifiers and alternation order.
* Python floats in `round(price / area)` are modelled by exact rationals with
  Python's banker's rounding (`pyRound`).
* `random.randint(a, b)` pacing sleeps become `Event.randSleep a b`; the fixed
  `asyncio.sleep(60)` becomes `Event.sleep 60`; progress-callback invocations
  become `Event.report msg` (dynamic delay numbers inside pause messages are
  abstracted away); network GETs become `Event.fetch url`.
* Python's lowercase / whitespace classes are modelled over the ASCII range
  (`String.toLower`, `Char.isWhitespace`), which covers every literal the
  program manipulates.
-/

/-- Bool test: `pat` is a prefix of `s` (character lists). -/
def isPrefixL : List Char → List Char → Bool
  | [], _ => true
  | _ :: _, [] => false
  | a :: as, b :: bs => a = b && isPrefixL as bs

/-- Bool test: `pat` occurs as a contiguous substring of `s`, i.e. Python's
`pat in s`. -/
def containsL (pat : List Char) : List Char → Bool
  | [] => pat.isEmpty
  | c :: t => isPrefixL pat (c :: t) || containsL pat t

/-- Python's substring operator `pat in s` on strings. -/
def strContains (s pat : String) : Bool :=
  containsL pat.toList s.toList

/-- `s.startswith(p)` over the character lists. -/
def strStartsWith (s p : String) : Bool :=
  isPrefixL p.toList s.toList

/-- Python's `str.strip()`: remove leading and trailing whitespace. -/
def strTrim (s : String) : String :=
  String.mk (((s.toList.dropWhile Char.isWhitespace).reverse.dropWhile
    Char.isWhitespace).reverse)

/-- Python's `str.lower()` (ASCII range, which covers the program's literals). -/
def strLower (s : String) : String :=
  String.mk (s.toList.map Char.toLower)

/-- Python's `s[:n]` on strings, by characters. -/
def strTake (s : String) (n : Nat) : String :=
  String.mk (s.toList.take n)

/-- Numeric value of a digit string, as Python's `int` on an all-digit string. -/
def digitsVal (ds : List Char) : Nat :=
  ds.foldl (fun a c => a * 10 + (c.toNat - '0'.toNat)) 0

/-- `re.sub(r'[^\d]', '', t)` followed by `int(...)`: keep the digits, fail
(`ValueError`) exactly when no digit remains. -/
def parseDigits (t : String) : Option Nat :=
  let ds := t.toList.filter Char.isDigit
  if ds.isEmpty then none else some (digitsVal ds)

/-- Detail-page document: the markup-parsing collaborator's view. -/
structure Doc where
  selectOne : String → Option String
  fullText : String

/-- Anchor element of a search-result page with the attributes the three
selectors of `parse_listings_page` inspect. -/
structure Anchor where
  href : String
  testid : Option String
  inResultItem : Bool

/-- Search-result page: its anchors in document order. -/
structure SearchPage where
  anchors : List Anchor

/-- One HTTP response: status code plus both views of the parsed body
(`page` for search-result pages, `doc`/`raw` for detail pages). -/
structure Response where
  status : Nat
  page : SearchPage
  doc : Doc
  raw : String

/-- Selector chain of `extract_title`. -/
def titleSelectors : List String :=
  ["[data-testid=\"ad-detail-ad-title\"] h1", ".AdDetailTitle", "h1"]

/-- Selector chain of `extract_price`. -/
def priceSelectors : List String :=
  ["[data-testid=\"ad-detail-ad-price\"] span", ".AdDetailPrice", ".price-value"]

/-- Selector chain of `extract_area`. -/
def areaSelectors : List String :=
  ["[data-testid=\"ad-detail-ad-properties\"]", ".AdDetailProperties"]

/-- Selector chain of `extract_location`. -/
def locationSelectors : List String :=
  ["[data-testid=\"ad-detail-ad-location\"]", ".AdDetailLocation"]

/-- Selector chain of `extract_description`. -/
def descriptionSelectors : List String :=
  ["[data-testid=\"ad-detail-ad-description\"] p", ".AdDescription-description"]

/-- First selector whose element exists, yielding its stripped text
(`element.get_text().strip()`). -/
def selectFirstText (doc : Doc) : List String → Option String
  | [] => none
  | sel :: rest =>
    match doc.selectOne sel with
    | some t => some (strTrim t)
    | none => selectFirstText doc rest

/-- `extract_title` of the source. -/
def extract_title (doc : Doc) : String :=
  (selectFirstText doc titleSelectors).getD "Unknown Title"

/-- `extract_location` of the source. -/
def extract_location (doc : Doc) : String :=
  (selectFirstText doc locationSelectors).getD "Unknown Location"

/-- `extract_description` of the source. -/
def extract_description (doc : Doc) : String :=
  (selectFirstText doc descriptionSelectors).getD ""

/-- Selector loop of `extract_price`: on a matched element strip non-digits
and parse; a `ValueError` (`parseDigits` = `none`) continues to the next
selector; all failing yields 0. -/
def extractPriceAux (doc : Doc) : List String → Nat
  | [] => 0
  | sel :: rest =>
    match doc.selectOne sel with
    | none => extractPriceAux doc rest
    | some t =>
      match parseDigits t with
      | some n => n
      | none => extractPriceAux doc rest

/-- `extract_price` of the source. -/
def extract_price (doc : Doc) : Nat :=
  extractPriceAux doc priceSelectors

/-- Leftmost match of `re.search(r'(\d+)\s*m²', text, re.IGNORECASE)` at one
start position: a maximal digit run, optional whitespace, then `m²`/`M²`.
(A shorter-than-maximal digit run always leaves a digit where `m` is required,
so greedy `\d+` needs no further backtracking.) -/
def areaAt (s : List Char) : Option Nat :=
  match s with
  | c :: _ =>
    if c.isDigit then
      let ds := s.takeWhile Char.isDigit
      let rest := (s.dropWhile Char.isDigit).dropWhile Char.isWhitespace
      match rest with
      | m :: sq :: _ => if (m = 'm' || m = 'M') && sq = '²' then some (digitsVal ds) else none
      | _ => none
    else none
  | [] => none

/-- Leftmost-match scan of the area pattern over the whole text. -/
def scanAreaList : List Char → Option Nat
  | [] => none
  | c :: t =>
    match areaAt (c :: t) with
    | some n => some n
    | none => scanAreaList t

/-- Selector loop of `extract_area`: on a matched element search for the area
pattern; no match continues with the next selector; all failing yields 0. -/
def extractAreaAux (doc : Doc) : List String → Nat
  | [] => 0
  | sel :: rest =>
    match doc.selectOne sel with
    | none => extractAreaAux doc rest
    | some t =>
      match scanAreaList t.toList with
      | some n => n
      | none => extractAreaAux doc rest

/-- `extract_area` of the source. -/
def extract_area (doc : Doc) : Nat :=
  extractAreaAux doc areaSelectors

/-- Python's `round` on an exact rational: round half to even. -/
def pyRound (q : ℚ) : ℤ :=
  let f : ℤ := ⌊q⌋
  let r : ℚ := q - (f : ℚ)
  if r < 1 / 2 then f
  else if 1 / 2 < r then f + 1
  else if f % 2 = 0 then f else f + 1

/-- Character class `[\s\-]` of the phone patterns. -/
def isSepChar (c : Char) : Bool :=
  c.isWhitespace || c = '-'

/-- `re.sub(r'[\s\-]', '', x)`. -/
def stripSeps (x : String) : String :=
  String.mk (x.toList.filter (fun c => !isSepChar c))

/-- Try `f hi, f (hi-1), ..., f lo` in that order (greedy counted repetition
with backtracking), returning the first success. -/
def firstSomeRange {α : Type} (lo hi : Nat) (f : Nat → Option α) : Option α :=
  ((List.range' lo (hi + 1 - lo)).reverse).findSome? f

/-- Consume exactly `n` digit characters. -/
def dropExactDigits : Nat → List Char → Option (List Char)
  | 0, s => some s
  | _ + 1, [] => none
  | n + 1, c :: s => if c.isDigit then dropExactDigits n s else none

/-- Greedy `[\s\-]?`: prefer consuming one separator, backtrack to consuming
none. -/
def optSep {α : Type} (s : List Char) (k : List Char → Option α) : Option α :=
  match s with
  | c :: rest =>
    if isSepChar c then
      match k rest with
      | some a => some a
      | none => k s
    else k s
  | [] => k s

/-- Tail `[\s\-]?[1-9]\d{1,4}[\s\-]?\d{3,8}` shared by both phone patterns,
with greedy backtracking; yields the unconsumed remainder. -/
def phoneTail (s : List Char) : Option (List Char) :=
  optSep s (fun s1 =>
    match s1 with
    | c :: s2 =>
      if c.isDigit && c ≠ '0' then
        firstSomeRange 1 4 (fun n =>
          (dropExactDigits n s2).bind (fun s3 =>
            optSep s3 (fun s4 =>
              firstSomeRange 3 8 (fun m => dropExactDigits m s4))))
      else none
    | [] => none)

/-- Consume the literal `pre`. -/
def dropLiteral : List Char → List Char → Option (List Char)
  | [], s => some s
  | _ :: _, [] => none
  | p :: ps, c :: cs => if p = c then dropLiteral ps cs else none

/-- Match of pattern `(\+43|0043)[\s\-]?[1-9]\d{1,4}[\s\-]?\d{3,8}` anchored
at the start of `s`: yields the captured group and the remainder.
The alternation tries `+43` first, as Python does. -/
def p1At (s : List Char) : Option (String × List Char) :=
  match dropLiteral ['+', '4', '3'] s with
  | some rest =>
    match phoneTail rest with
    | some r => some ("+43", r)
    | none =>
      match dropLiteral ['0', '0', '4', '3'] s with
      | some rest2 => (phoneTail rest2).map (fun r => ("0043", r))
      | none => none
  | none =>
    match dropLiteral ['0', '0', '4', '3'] s with
    | some rest2 => (phoneTail rest2).map (fun r => ("0043", r))
    | none => none

/-- Leftmost match of the first phone pattern over the whole text: yields
(full match, captured group). -/
def scanP1 : List Char → Option (String × String)
  | [] => none
  | c :: t =>
    match p1At (c :: t) with
    | some (g, rest) =>
      some (String.mk ((c :: t).take ((c :: t).length - rest.length)), g)
    | none => scanP1 t

/-- Match of pattern `0[1-9]\d{1,4}[\s\-]?\d{3,8}` anchored at the start of
`s`: yields the remainder. -/
def p2At (s : List Char) : Option (List Char) :=
  match s with
  | '0' :: c :: s2 =>
    if c.isDigit && c ≠ '0' then
      firstSomeRange 1 4 (fun n =>
        (dropExactDigits n s2).bind (fun s3 =>
          optSep s3 (fun s4 =>
            firstSomeRange 3 8 (fun m => dropExactDigits m s4))))
    else none
  | _ => none

/-- Leftmost match of the second phone pattern: yields the full match. -/
def scanP2 : List Char → Option String
  | [] => none
  | c :: t =>
    match p2At (c :: t) with
    | some rest =>
      some (String.mk ((c :: t).take ((c :: t).length - rest.length)))
    | none => scanP2 t

/-- `extract_phone_number` of the source. `re.findall` on the first pattern
returns the CAPTURED GROUPS (the pattern has exactly one group,
`(\+43|0043)`), so `matches[0]` is only the prefix; the second pattern has no
group, so there `matches[0]` is the full match. -/
def extract_phone_number (html : String) : Option String :=
  match scanP1 html.toList with
  | some (_, g) => some (stripSeps g)
  | none =>
    match scanP2 html.toList with
    | some full => some (stripSeps full)
    | none => none

/-- Phone extraction as the spec words it: the FULL first match of the first
pattern to succeed, separators stripped. Comparator for
`extract_phone_number`, following the spec's description. -/
def phoneNumberSpec (html : String) : Option String :=
  match scanP1 html.toList with
  | some (full, _) => some (stripSeps full)
  | none =>
    match scanP2 html.toList with
    | some full => some (stripSeps full)
    | none => none

/-- The fixed private-seller keyword list of `extract_listing_details`. -/
def privateKeywords : List String :=
  ["privatverkauf", "privat verkauf", "von privat",
   "privater verkäufer", "doppelmarkler", "ohne makler"]

/-- `any(keyword in text_content for keyword in private_keywords)` applied to
`soup.get_text().lower()`. -/
def hasPrivateKeyword (fullText : String) : Bool :=
  privateKeywords.any (fun k => strContains (strLower fullText) k)

/-- One extracted listing record, immutable once produced. -/
structure Listing where
  title : String
  price : Nat
  area : Nat
  location : String
  url : String
  description : String
  phoneNumber : Option String
  category : String
  region : String
  eur_per_m2 : Int
  scraped_at : String
deriving DecidableEq

/-- Body of `extract_listing_details` after a successful fetch: field
extraction, the private-seller/price guard, and the construction of the
listing dictionary. `now` stands for `datetime.now().isoformat()`. -/
def build_listing (category_name url now : String) (r : Response) : Option Listing :=
  if r.status ≠ 200 then none
  else if hasPrivateKeyword r.doc.fullText && decide (0 < extract_price r.doc) then
    some
      { title := extract_title r.doc
        price := extract_price r.doc
        area := extract_area r.doc
        location := extract_location r.doc
        url := url
        description := extract_description r.doc
        phoneNumber := extract_phone_number r.raw
        category :=
          if strContains category_name "eigentumswohnung" then "eigentumswohnung"
          else "grundstueck"
        region :=
          if strContains category_name "wien" then "wien" else "niederoesterreich"
        eur_per_m2 :=
          if 0 < extract_area r.doc then
            pyRound ((extract_price r.doc : ℚ) / (extract_area r.doc : ℚ))
          else 0
        scraped_at := now }
  else none

/-- Full `extract_listing_details`: fetch the detail URL through the
environment (an exception or a non-200 yields `None`), then build. The trace
records the single GET. -/
def extract_listing_details (env : String → Option Response)
    (category_name url now : String) : Option Listing :=
  match env url with
  | none => none
  | some r => build_listing category_name url now r

/-- The site origin used to absolutize relative hrefs. -/
def originUrl : String := "https://www.willhaben.at"

/-- The listing-path fragment filtering and selecting detail links. -/
def listingFragment : String := "/iad/immobilien/d/"

/-- `listing_urls.add(href)`: the Python set, rendered as an insertion-ordered
list without duplicates. -/
def addUrl (acc : List String) (u : String) : List String :=
  if u ∈ acc then acc else acc ++ [u]

/-- Absolutization step: `if href.startswith('/'): href = origin + href`. -/
def normUrl (h : String) : String :=
  if strStartsWith h "/" then originUrl ++ h else h

/-- The anchors returned by the three selectors of `parse_listings_page`, in
selector order then document order: `a[href*="/iad/immobilien/d/"]`,
`a[data-testid*="result-item"]`, `.result-item a`. -/
def selLinks (page : SearchPage) : List Anchor :=
  page.anchors.filter (fun a => strContains a.href listingFragment)
    ++ page.anchors.filter (fun a =>
        match a.testid with
        | some t => strContains t "result-item"
        | none => false)
    ++ page.anchors.filter (fun a => a.inResultItem)

/-- URL-collection phase of `parse_listings_page`: filter on the path
fragment, absolutize, insert into the set. -/
def discoverUrls (page : SearchPage) : List String :=
  (selLinks page).foldl
    (fun acc a =>
      if strContains a.href listingFragment then addUrl acc (normUrl a.href) else acc)
    []

/-- Per-URL phase of `parse_listings_page`: extract each discovered URL's
details, keeping the successfully built listings. -/
def collectListings (env : String → Option Response) (category_name now : String) :
    List String → List Listing
  | [] => []
  | u :: us =>
    match extract_listing_details env category_name u now with
    | some l => l :: collectListings env category_name now us
    | none => collectListings env category_name now us

/-- `parse_listings_page` of the source. -/
def parse_listings_page (env : String → Option Response) (now : String)
    (page : SearchPage) (category_name : String) : List Listing :=
  collectListings env category_name now (discoverUrls page)

/-- Observable actions of the scan, for the temporal/error-handling claims. -/
inductive Event where
  | fetch (url : String)
  | sleep (secs : Nat)
  | randSleep (lo hi : Nat)
  | report (msg : String)
deriving DecidableEq

/-- `get_page_listings` of the source, with its event trace: one GET, then on
HTTP 200 the parse, on HTTP 429 the rate-limit report plus fixed 60s back-off
and an empty page, on any other status one error report and an empty page; a
transport exception also degrades to an empty page. -/
def get_page_listings (env : String → Option Response)
    (now url category_name : String) : List Listing × List Event :=
  match env url with
  | none => ([], [Event.fetch url, Event.report "❌ Request Error"])
  | some r =>
    if r.status = 200 then
      (parse_listings_page env now r.page category_name,
        [Event.fetch url]
          ++ (discoverUrls r.page).map (fun u => Event.fetch u))
    else if r.status = 429 then
      ([], [Event.fetch url, Event.report "⚠️ Rate limit - warte 60s", Event.sleep 60])
    else
      ([], [Event.fetch url,
            Event.report ("❌ HTTP " ++ Nat.repr r.status ++ " für " ++ url)])

/-- Mutable state of `ContinuousWillhabenScraper`. -/
structure ScraperState where
  is_running : Bool
  current_cycle : Nat
  found_listings : List Listing

/-- Per-listing body of the inner loop of `scan_category`: the find report
and the 5-12s politeness delay. -/
def fundEvents : List Listing → List Event
  | [] => []
  | l :: ls =>
    Event.report ("💎 PYTHON FUND: " ++ strTake l.title 50 ++ " - €" ++ Nat.repr l.price)
      :: Event.randSleep 5 12 :: fundEvents ls

/-- One iteration of the page loop of `scan_category`: build the paginated
URL, fetch and parse the page, append every listing to the buffer with its
report and per-listing delay, then the 15-30s per-page delay. -/
def scanPage (env : String → Option Response) (now : String) (st : ScraperState)
    (category_name base_url : String) (page : Nat) : ScraperState × List Event :=
  let url := base_url ++ "&page=" ++ Nat.repr page
  let r := get_page_listings env now url category_name
  ({ st with found_listings := st.found_listings ++ r.1 },
    r.2
      ++ Event.report ("📄 Seite " ++ Nat.repr page ++ ": " ++ Nat.repr r.1.length
            ++ " Listings in " ++ category_name)
        :: fundEvents r.1
      ++ [Event.randSleep 15 30])

/-- `scan_category` of the source: the scan report, then pages 1, 2 and 3.
The running flag is checked at the top of the page loop (and again before each
listing); in this sequential model the flag cannot change mid-scan, so a
stopped state performs no page work at all. -/
def scan_category (env : String → Option Response) (now : String)
    (st : ScraperState) (category_name base_url : String) :
    ScraperState × List Event :=
  if st.is_running then
    let p1 := scanPage env now st category_name base_url 1
    let p2 := scanPage env now p1.1 category_name base_url 2
    let p3 := scanPage env now p2.1 category_name base_url 3
    (p3.1, Event.report ("🔍 PYTHON SCAN: " ++ category_name)
        :: (p1.2 ++ p2.2 ++ p3.2))
  else (st, [Event.report ("🔍 PYTHON SCAN: " ++ category_name)])

/-- Category loop of one cycle of `continuous_scan_loop`: check the running
flag before each category, scan it, then the 180-480s inter-category delay.
The order of `cats` stands for the shuffled order of one cycle. -/
def scanCats (env : String → Option Response) (now : String) :
    ScraperState → List (String × String) → ScraperState × List Event
  | st, [] => (st, [])
  | st, (name, base_url) :: rest =>
    if st.is_running then
      let c := scan_category env now st name base_url
      let r := scanCats env now c.1 rest
      (r.1, c.2 ++ Event.report "⏰ Pause bis nächste Kategorie"
          :: Event.randSleep 180 480 :: r.2)
    else (st, [])

/-- `continuous_scan_loop` of the source, fuel-bounded: while running,
increment the cycle counter, scan all categories in the (shuffled) order
`cats`, then the long 1200-2700s inter-cycle delay. A state with
`is_running = false` exits at once, performing nothing. -/
def continuous_scan_loop (env : String → Option Response) (now : String)
    (cats : List (String × String)) : Nat → ScraperState → ScraperState × List Event
  | 0, st => (st, [])
  | fuel + 1, st =>
    if st.is_running then
      let st1 : ScraperState := { st with current_cycle := st.current_cycle + 1 }
      let c := scanCats env now st1 cats
      let r := continuous_scan_loop env now cats fuel c.1
      (r.1, Event.report ("🔄 PYTHON CYCLE " ++ Nat.repr st1.current_cycle
              ++ " - Scanne alle Kategorien...")
          :: c.2 ++ Event.report "💤 CYCLE COMPLETE - Pause bis nächster Zyklus"
          :: Event.randSleep 1200 2700 :: r.2)
    else (st, [])

/-- `stop_scraping` of the source: a single unconditional flag assignment
(total, hence exception-free). -/
def stop_scraping (st : ScraperState) : ScraperState :=
  { st with is_running := false }

/-- Snapshot returned by `get_status`. -/
structure Status where
  is_running : Bool
  current_cycle : Nat
  total_found : Nat
deriving DecidableEq

/-- `get_status` of the source. -/
def get_status (st : ScraperState) : Status :=
  { is_running := st.is_running
    current_cycle := st.current_cycle
    total_found := st.found_listings.length }

/-- Python slice `l[i:]` with an arbitrary (possibly negative) start index. -/
def pySliceFrom {α : Type} (i : Int) (l : List α) : List α :=
  if i < 0 then l.drop (max ((l.length : Int) + i) 0).toNat
  else l.drop (min i.toNat l.length)

/-- `get_recent_listings` of the source:
`self.found_listings[-limit:] if self.found_listings else []`. -/
def get_recent_listings (limit : Int) (found_listings : List Listing) : List Listing :=
  if found_listings.isEmpty then [] else pySliceFrom (-limit) found_listings

/-- The four fixed categories of `__init__` (key, search URL). -/
def categories : List (String × String) :=
  [("eigentumswohnung-wien",
    "https://www.willhaben.at/iad/immobilien/eigentumswohnung/eigentumswohnung-angebote?areaId=900&areaId=903&rows=25&SELLER_TYPE=PRIVATE&keyword=Privatverkauf"),
   ("eigentumswohnung-niederoesterreich",
    "https://www.willhaben.at/iad/immobilien/eigentumswohnung/eigentumswohnung-angebote?areaId=904&rows=25&SELLER_TYPE=PRIVATE&keyword=Privatverkauf"),
   ("grundstueck-wien",
    "https://www.willhaben.at/iad/immobilien/grundstueck/grundstueck-angebote?areaId=900&areaId=903&rows=25&SELLER_TYPE=PRIVATE&keyword=Privatverkauf"),
   ("grundstueck-niederoesterreich",
    "https://www.willhaben.at/iad/immobilien/grundstueck/grundstueck-angebote?areaId=904&rows=25&SELLER_TYPE=PRIVATE&keyword=Privatverkauf")]

/-- Core inversion: whatever a successful `build_listing` guarantees about
the produced record. -/
lemma build_listing_some {category_name url now : String} {r : Response} {l : Listing}
    (h : build_listing category_name url now r = some l) :
    r.status = 200 ∧ hasPrivateKeyword r.doc.fullText = true ∧
    l.price = extract_price r.doc ∧ l.area = extract_area r.doc ∧
    0 < l.price ∧
    l.region = (if strContains category_name "wien" then "wien" else "niederoesterreich") ∧
    l.category = (if strContains category_name "eigentumswohnung" then "eigentumswohnung"
      else "grundstueck") ∧
    l.eur_per_m2 = (if 0 < l.area then pyRound ((l.price : ℚ) / (l.area : ℚ)) else 0) := by
  unfold build_listing at h
  split at h
  · exact absurd h (by simp)
  · next hs =>
    split at h
    · next hg =>
      rw [Bool.and_eq_true, decide_eq_true_eq] at hg
      obtain ⟨hpriv, hpos⟩ := hg
      obtain rfl : _ = l := Option.some.injEq _ _ ▸ h
      exact ⟨by omega, hpriv, rfl, rfl, hpos, rfl, rfl, rfl⟩
    · exact absurd h (by simp)

/-- Document with no matching selectors. -/
def emptyDoc : Doc := ⟨fun _ => none, ""⟩

/-- Concrete detail-page document used by the witnesses. -/
def sampleDoc : Doc :=
  { selectOne := fun sel =>
      if sel = "[data-testid=\"ad-detail-ad-title\"] h1" then some " Schöne Wohnung "
      else if sel = "[data-testid=\"ad-detail-ad-price\"] span" then some "€ 500.000"
      else if sel = "[data-testid=\"ad-detail-ad-properties\"]" then some "Wohnfläche ca. 75 m²"
      else none
    fullText := "Privatverkauf einer schönen Wohnung" }

/-- Detail URL of the witness environment. -/
def detailUrl : String := "https://www.willhaben.at/iad/immobilien/d/AAA"

/-- HTTP 200 response carrying `sampleDoc`. -/
def detailResponse : Response := ⟨200, ⟨[]⟩, sampleDoc, ""⟩

/-- The listing `build_listing` produces from `detailResponse` in category
`eigentumswohnung-wien`. -/
def sampleListing : Listing :=
  { title := "Schöne Wohnung", price := 500000, area := 75,
    location := "Unknown Location", url := detailUrl, description := "",
    phoneNumber := none, category := "eigentumswohnung", region := "wien",
    eur_per_m2 := pyRound (((500000 : ℕ) : ℚ) / ((75 : ℕ) : ℚ)), scraped_at := "T0" }

/-- Search URL base of the witness environment. -/
def searchBase : String := "https://www.willhaben.at/iad/immobilien/suche"

/-- Witness environment: page 1 of the search yields one anchor to
`detailUrl`; everything else is a transport failure. -/
def sampleEnv : String → Option Response := fun u =>
  if u = searchBase ++ "&page=1" then
    some ⟨200, ⟨[⟨"/iad/immobilien/d/AAA", none, false⟩]⟩, emptyDoc, ""⟩
  else if u = detailUrl then some detailResponse
  else none

/-- A freshly started scraper state. -/
def startedState : ScraperState := ⟨true, 0, []⟩

/-- C2: for every constructed listing, `eur_per_m2` is `round(price / area)`
(banker's rounding on the exact quotient) whenever `area > 0` and exactly 0
whenever `area = 0`; the division is guarded by `area > 0`, so no
division-by-zero occurs. -/
theorem c2_eur_per_m2_correct (category_name url now : String) (r : Response)
    (l : Listing) (h : build_listing category_name url now r = some l) :
    (0 < l.area → l.eur_per_m2 = pyRound ((l.price : ℚ) / (l.area : ℚ))) ∧
    (l.area = 0 → l.eur_per_m2 = 0) := by
  obtain ⟨-, -, -, -, -, -, -, he⟩ := build_listing_some h
  constructor
  · intro ha
    rw [he, if_pos ha]
  · intro ha
    rw [he, ha]
    simp

/-- Witness for C2 at the concrete sample response. -/
theorem c2_witness :
    0 < sampleListing.area ∧
    sampleListing.eur_per_m2
      = pyRound ((sampleListing.price : ℚ) / (sampleListing.area : ℚ)) :=
  ⟨by decide,
   (c2_eur_per_m2_correct "eigentumswohnung-wien" detailUrl "T0" detailResponse
      sampleListing rfl).1 (by decide)⟩

/-- C10: a buffered listing's region is `wien` exactly when its category key
contains `wien` (and `niederoesterreich` otherwise), its category is
`eigentumswohnung` exactly when the key contains `eigentumswohnung` (and
`grundstueck` otherwise); region and category always lie in these
two-element enumerations. -/
theorem c10_region_category_enum (category_name url now : String) (r : Response)
    (l : Listing) (h : build_listing category_name url now r = some l) :
    ((l.region = "wien") ↔ strContains category_name "wien" = true) ∧
    (strContains category_name "wien" = false → l.region = "niederoesterreich") ∧
    ((l.category = "eigentumswohnung")
      ↔ strContains category_name "eigentumswohnung" = true) ∧
    (strContains category_name "eigentumswohnung" = false → l.category = "grundstueck") ∧
    (l.region = "wien" ∨ l.region = "niederoesterreich") ∧
    (l.category = "eigentumswohnung" ∨ l.category = "grundstueck") := by
  obtain ⟨-, -, -, -, -, hr, hc, -⟩ := build_listing_some h
  by_cases hw : strContains category_name "wien" = true
  · rw [if_pos hw] at hr
    by_cases hew : strContains category_name "eigentumswohnung" = true
    · rw [if_pos hew] at hc
      exact ⟨by simp [hr, hw], by simp [hw], by simp [hc, hew], by simp [hew],
        Or.inl hr, Or.inl hc⟩
    · rw [if_neg hew] at hc
      refine ⟨by simp [hr, hw], by simp [hw], ?_, fun _ => hc, Or.inl hr, Or.inr hc⟩
      constructor
      · intro hx; rw [hc] at hx; exact absurd hx (by decide)
      · intro hx; exact absurd hx hew
  · rw [if_neg hw] at hr
    have hrr : ¬ (l.region = "wien") := by rw [hr]; decide
    by_cases hew : strContains category_name "eigentumswohnung" = true
    · rw [if_pos hew] at hc
      exact ⟨by simp [hrr, hw], fun _ => hr, by simp [hc, hew], by simp [hew],
        Or.inr hr, Or.inl hc⟩
    · rw [if_neg hew] at hc
      have hcc : ¬ (l.category = "eigentumswohnung") := by rw [hc]; decide
      exact ⟨by simp [hrr, hw], fun _ => hr, by simp [hcc, hew], fun _ => hc,
        Or.inr hr, Or.inr hc⟩

/-- Witness for C10 at the concrete sample response. -/
theorem c10_witness :
    ((sampleListing.region = "wien")
      ↔ strContains "eigentumswohnung-wien" "wien" = true) ∧
    (strContains "eigentumswohnung-wien" "wien" = false →
      sampleListing.region = "niederoesterreich") ∧
    ((sampleListing.category = "eigentumswohnung")
      ↔ strContains "eigentumswohnung-wien" "eigentumswohnung" = true) ∧
    (strContains "eigentumswohnung-wien" "eigentumswohnung" = false →
      sampleListing.category = "grundstueck") ∧
    (sampleListing.region = "wien" ∨ sampleListing.region = "niederoesterreich") ∧
    (sampleListing.category = "eigentumswohnung"
      ∨ sampleListing.category = "grundstueck") :=
  c10_region_category_enum "eigentumswohnung-wien" detailUrl "T0" detailResponse
    sampleListing rfl

/-- C5: phone extraction does try the Austrian pattern first and strips
separators, and returns `None` when nothing matches — but `re.findall` on a
pattern whose only group is `(\+43|0043)` returns the groups, so for the
first pattern the code yields just the matched prefix, not the full phone
number the spec describes (`phoneNumberSpec`). -/
theorem c5_phone_findall_group_bug :
    extract_phone_number "Kontakt: +43 12 345678" = some "+43" ∧
    phoneNumberSpec "Kontakt: +43 12 345678" = some "+4312345678" ∧
    extract_phone_number "Kontakt: +43 12 345678"
      ≠ phoneNumberSpec "Kontakt: +43 12 345678" ∧
    extract_phone_number "Tel 0664 1234567" = some "06641234567" ∧
    phoneNumberSpec "Tel 0664 1234567" = some "06641234567" ∧
    extract_phone_number "keine Nummer hier" = none := by
  refine ⟨by decide, by decide, ?_, by decide, by decide, by decide⟩
  decide

/-- Spec-side description of price extraction: first selector whose element
text parses after digit-stripping, else 0. -/
def priceSpec (doc : Doc) : Nat :=
  (priceSelectors.findSome? (fun sel => (doc.selectOne sel).bind parseDigits)).getD 0

/-- The selector loop agrees with the first-parseable description, over any
selector chain. -/
lemma extractPriceAux_eq_findSome (doc : Doc) :
    ∀ sels : List String,
      extractPriceAux doc sels
        = (sels.findSome? (fun sel => (doc.selectOne sel).bind parseDigits)).getD 0 := by
  intro sels
  induction sels with
  | nil => rfl
  | cons sel rest ih =>
    simp only [extractPriceAux, List.findSome?]
    cases hsel : doc.selectOne sel with
    | none => simpa using ih
    | some t =>
      cases hp : parseDigits t with
      | none => simp only [Option.some_bind, hp]; exact ih
      | some n => simp only [Option.some_bind, hp, Option.getD_some]

/-- Price-slot document of the C8 scenario. -/
def priceScenarioDoc : Doc :=
  ⟨fun sel => if sel = "[data-testid=\"ad-detail-ad-price\"] span"
    then some "1.234.567" else none, ""⟩

/-- C8: price extraction tries its selectors in priority order, digit-strips
and parses the first matching element's text, falls through on parse failure,
defaults to 0; and the scenario text `1.234.567` yields 1234567. -/
theorem c8_price_extraction :
    (∀ doc : Doc, extract_price doc = priceSpec doc) ∧
    parseDigits "1.234.567" = some 1234567 ∧
    extract_price priceScenarioDoc = 1234567 ∧
    extract_price emptyDoc = 0 := by
  refine ⟨fun doc => extractPriceAux_eq_findSome doc priceSelectors, by decide, by decide,
    by decide⟩

/-- The C6 scenario page: two anchors with the same listing path, one with a
query string. -/
def queryScenarioPage : SearchPage :=
  ⟨[⟨"/iad/immobilien/d/AAA", none, false⟩,
    ⟨"/iad/immobilien/d/AAA?x=1", none, false⟩]⟩

/-- Counterexample to C6: the Discoverer retains BOTH URLs of the scenario
page (its dedup key is the full absolutized href, not the path fragment), so
exactly one canonical URL is NOT retained. -/
theorem c6_counterexample :
    discoverUrls queryScenarioPage
      = ["https://www.willhaben.at/iad/immobilien/d/AAA",
         "https://www.willhaben.at/iad/immobilien/d/AAA?x=1"] ∧
    (discoverUrls queryScenarioPage).length ≠ 1 := by
  refine ⟨by decide, ?_⟩
  decide

/-- C6 as amended: the dedup key is the full absolutized URL, so the two
anchors of the scenario page yield exactly two distinct retained URLs, with
no duplicate. -/
theorem c6_both_urls_kept :
    (discoverUrls queryScenarioPage).Nodup ∧
    (discoverUrls queryScenarioPage).length = 2 ∧
    "https://www.willhaben.at/iad/immobilien/d/AAA" ∈ discoverUrls queryScenarioPage ∧
    "https://www.willhaben.at/iad/immobilien/d/AAA?x=1" ∈ discoverUrls queryScenarioPage := by
  refine ⟨by decide, by decide, by decide, by decide⟩

/-- Counterexample to C9: Python's `found_listings[-limit:]` with `limit = 0`
is `found_listings[0:]`, the whole buffer — more than `limit` listings. -/
theorem c9_counterexample :
    get_recent_listings 0 [sampleListing] = [sampleListing] ∧
    ¬ ((get_recent_listings 0 [sampleListing]).length ≤ 0) := by
  have h : get_recent_listings 0 [sampleListing] = [sampleListing] := rfl
  exact ⟨h, by rw [h]; decide⟩

/-- C9 as amended: for every `limit ≥ 1` (the `limit = 0` case returns the
whole buffer, refuting the original claim), `getRecent` returns exactly the
last `min limit size` buffered listings in buffer order, never more than
`limit`. -/
theorem c9_get_recent_suffix (limit : Int) (buf : List Listing) (h : 1 ≤ limit) :
    get_recent_listings limit buf = buf.drop (((buf.length : Int) - limit).toNat) ∧
    (get_recent_listings limit buf).length ≤ limit.toNat := by
  unfold get_recent_listings pySliceFrom
  cases buf with
  | nil => simp
  | cons x xs =>
    have hneg : -limit < 0 := by omega
    rw [if_neg (by simp), if_pos hneg]
    constructor
    · have : (max ((((x :: xs).length : Nat) : Int) + -limit) 0).toNat
          = ((((x :: xs).length : Nat) : Int) - limit).toNat := by omega
      rw [this]
    · rw [List.length_drop]
      omega

/-- Witness for C9 at `limit = 2` over a one-element buffer. -/
theorem c9_witness :
    (1 : Int) ≤ 2 ∧
    (get_recent_listings 2 [sampleListing]
        = [sampleListing].drop ((([sampleListing].length : Int) - 2).toNat) ∧
      (get_recent_listings 2 [sampleListing]).length ≤ (2 : Int).toNat) :=
  ⟨by decide, c9_get_recent_suffix 2 [sampleListing] (by decide)⟩

/-- C3: after `stop()` on a running scraper, `get_status` reports not
running; the scan loop observes the cleared flag at its checkpoint and
terminates at once, the category scan performs no page work, and no fetch
(network request) appears in any subsequent trace. `stop_scraping` is a
total function (a single flag assignment), so it raises nothing. -/
theorem c3_stop_halts (st : ScraperState) (env : String → Option Response)
    (now : String) (cats : List (String × String)) (fuel : Nat)
    (category_name base_url : String) (_h : st.is_running = true) :
    (get_status (stop_scraping st)).is_running = false ∧
    continuous_scan_loop env now cats fuel (stop_scraping st) = (stop_scraping st, []) ∧
    scan_category env now (stop_scraping st) category_name base_url
      = (stop_scraping st, [Event.report ("🔍 PYTHON SCAN: " ++ category_name)]) ∧
    (∀ e ∈ (scan_category env now (stop_scraping st) category_name base_url).2,
      ∀ u, e ≠ Event.fetch u) ∧
    (∀ e ∈ (continuous_scan_loop env now cats fuel (stop_scraping st)).2,
      ∀ u, e ≠ Event.fetch u) := by
  have hstop : (stop_scraping st).is_running = false := rfl
  have hloop : continuous_scan_loop env now cats fuel (stop_scraping st)
      = (stop_scraping st, []) := by
    cases fuel with
    | zero => rfl
    | succ n => simp [continuous_scan_loop, hstop]
  have hscan : scan_category env now (stop_scraping st) category_name base_url
      = (stop_scraping st, [Event.report ("🔍 PYTHON SCAN: " ++ category_name)]) := by
    simp [scan_category, hstop]
  refine ⟨rfl, hloop, hscan, ?_, ?_⟩
  · rw [hscan]
    intro e he u
    simp only [List.mem_singleton] at he
    subst he
    simp
  · rw [hloop]
    intro e he
    simp at he

/-- Witness for C3 at a concrete running state. -/
theorem c3_witness :
    (get_status (stop_scraping startedState)).is_running = false ∧
    continuous_scan_loop sampleEnv "T0" [] 1 (stop_scraping startedState)
      = (stop_scraping startedState, []) ∧
    scan_category sampleEnv "T0" (stop_scraping startedState) "eigentumswohnung-wien"
        searchBase
      = (stop_scraping startedState,
         [Event.report ("🔍 PYTHON SCAN: " ++ "eigentumswohnung-wien")]) ∧
    (∀ e ∈ (scan_category sampleEnv "T0" (stop_scraping startedState)
          "eigentumswohnung-wien" searchBase).2, ∀ u, e ≠ Event.fetch u) ∧
    (∀ e ∈ (continuous_scan_loop sampleEnv "T0" [] 1 (stop_scraping startedState)).2,
      ∀ u, e ≠ Event.fetch u) :=
  c3_stop_halts startedState sampleEnv "T0" [] 1 "eigentumswohnung-wien" searchBase rfl

/-- C4: a 429 search-page response yields zero listings, exactly one
rate-limit progress event, and a fixed 60-second back-off sleep after the
single (not retried) request. -/
theorem c4_rate_limited_backoff (env : String → Option Response)
    (now url category_name : String) (r : Response)
    (h1 : env url = some r) (h2 : r.status = 429) :
    get_page_listings env now url category_name
      = ([], [Event.fetch url, Event.report "⚠️ Rate limit - warte 60s",
              Event.sleep 60]) ∧
    ((get_page_listings env now url category_name).2.filter
        (fun e => match e with
          | Event.fetch _ => true
          | _ => false)).length = 1 ∧
    ((get_page_listings env now url category_name).2.filter
        (fun e => match e with
          | Event.report m => m = "⚠️ Rate limit - warte 60s"
          | _ => false)).length = 1 := by
  have heq : get_page_listings env now url category_name
      = ([], [Event.fetch url, Event.report "⚠️ Rate limit - warte 60s",
              Event.sleep 60]) := by
    unfold get_page_listings
    rw [h1]
    simp only [h2]
    rfl
  refine ⟨heq, ?_, ?_⟩
  · rw [heq]
    rfl
  · rw [heq]
    rfl

/-- Response used by the C4 witness. -/
def rateLimitedResponse : Response := ⟨429, ⟨[]⟩, emptyDoc, ""⟩

/-- Environment of the C4 witness: every URL is rate-limited. -/
def rateLimitedEnv : String → Option Response := fun _ => some rateLimitedResponse

/-- Witness for C4 at a concrete 429 environment. -/
theorem c4_witness :
    get_page_listings rateLimitedEnv "T0" "https://www.willhaben.at/u" "cat"
      = ([], [Event.fetch "https://www.willhaben.at/u",
              Event.report "⚠️ Rate limit - warte 60s", Event.sleep 60]) ∧
    ((get_page_listings rateLimitedEnv "T0" "https://www.willhaben.at/u" "cat").2.filter
        (fun e => match e with
          | Event.fetch _ => true
          | _ => false)).length = 1 ∧
    ((get_page_listings rateLimitedEnv "T0" "https://www.willhaben.at/u" "cat").2.filter
        (fun e => match e with
          | Event.report m => m = "⚠️ Rate limit - warte 60s"
          | _ => false)).length = 1 :=
  c4_rate_limited_backoff rateLimitedEnv "T0" "https://www.willhaben.at/u" "cat"
    rateLimitedResponse rfl rfl

/-- Membership inversion for the per-URL extraction loop. -/
lemma mem_collectListings {env : String → Option Response}
    {category_name now : String} {l : Listing} :
    ∀ {us : List String}, l ∈ collectListings env category_name now us →
      ∃ u, u ∈ us ∧ extract_listing_details env category_name u now = some l := by
  intro us
  induction us with
  | nil => intro h; exact absurd h (by simp [collectListings])
  | cons u rest ih =>
    intro h
    rw [collectListings] at h
    cases hx : extract_listing_details env category_name u now with
    | none =>
      rw [hx] at h
      obtain ⟨v, hv, he⟩ := ih h
      exact ⟨v, List.mem_cons_of_mem _ hv, he⟩
    | some l' =>
      rw [hx] at h
      rcases List.mem_cons.mp h with h0 | h1
      · exact ⟨u, List.mem_cons_self _ _, by rw [hx, h0]⟩
      · obtain ⟨v, hv, he⟩ := ih h1
        exact ⟨v, List.mem_cons_of_mem _ hv, he⟩

/-- Membership inversion for `get_page_listings`: every listing of a page
comes from a fetched response through `build_listing`. -/
lemma mem_get_page_listings {env : String → Option Response}
    {now url category_name : String} {l : Listing}
    (h : l ∈ (get_page_listings env now url category_name).1) :
    ∃ u r, env u = some r ∧ build_listing category_name u now r = some l := by
  unfold get_page_listings at h
  split at h
  · exact absurd h (by simp)
  · split at h
    · simp only [] at h
      obtain ⟨u, -, he⟩ := mem_collectListings h
      unfold extract_listing_details at he
      split at he
      · exact absurd he (by simp)
      · next r' hu => exact ⟨u, r', hu, he⟩
    · split at h
      · exact absurd h (by simp)
      · exact absurd h (by simp)

/-- Membership inversion for one page iteration of `scan_category`. -/
lemma mem_scanPage {env : String → Option Response} {now : String}
    {st : ScraperState} {category_name base_url : String} {page : Nat} {l : Listing}
    (h : l ∈ (scanPage env now st category_name base_url page).1.found_listings) :
    l ∈ st.found_listings ∨
      ∃ u r, env u = some r ∧ build_listing category_name u now r = some l := by
  have hfl : (scanPage env now st category_name base_url page).1.found_listings
      = st.found_listings
        ++ (get_page_listings env now (base_url ++ "&page=" ++ Nat.repr page)
              category_name).1 := rfl
  rw [hfl] at h
  rcases List.mem_append.mp h with h1 | h2
  · exact Or.inl h1
  · exact Or.inr (mem_get_page_listings h2)

/-- C1: every listing ever appended to the result buffer by a category scan
was built by `build_listing` from a successfully fetched detail page whose
lower-cased full text matches a private-seller keyword, and has price > 0;
conversely no listing is constructed when either condition fails (the guard
of `build_listing`). -/
theorem c1_accepted_listing_invariant :
    (∀ (category_name url now : String) (r : Response) (l : Listing),
      build_listing category_name url now r = some l →
        0 < l.price ∧ hasPrivateKeyword r.doc.fullText = true) ∧
    (∀ (env : String → Option Response) (now : String) (st : ScraperState)
        (category_name base_url : String) (l : Listing),
      l ∈ (scan_category env now st category_name base_url).1.found_listings →
        l ∈ st.found_listings ∨
          (0 < l.price ∧
            ∃ u r, env u = some r ∧ r.status = 200 ∧
              hasPrivateKeyword r.doc.fullText = true ∧
              build_listing category_name u now r = some l)) := by
  constructor
  · intro category_name url now r l h
    obtain ⟨-, hpriv, -, -, hpos, -, -, -⟩ := build_listing_some h
    exact ⟨hpos, hpriv⟩
  · intro env now st category_name base_url l h
    have pack : ∀ {u : String} {r : Response}, env u = some r →
        build_listing category_name u now r = some l →
        0 < l.price ∧
          ∃ u' r', env u' = some r' ∧ r'.status = 200 ∧
            hasPrivateKeyword r'.doc.fullText = true ∧
            build_listing category_name u' now r' = some l := by
      intro u r henv hb
      obtain ⟨hs, hpriv, -, -, hpos, -, -, -⟩ := build_listing_some hb
      exact ⟨hpos, u, r, henv, hs, hpriv, hb⟩
    by_cases hr : st.is_running
    · rw [scan_category, if_pos hr] at h
      simp only [] at h
      rcases mem_scanPage h with h2 | ⟨u, r, henv, hb⟩
      · rcases mem_scanPage h2 with h1 | ⟨u, r, henv, hb⟩
        · rcases mem_scanPage h1 with h0 | ⟨u, r, henv, hb⟩
          · exact Or.inl h0
          · exact Or.inr (pack henv hb)
        · exact Or.inr (pack henv hb)
      · exact Or.inr (pack henv hb)
    · rw [scan_category, if_neg hr] at h
      exact Or.inl h

/-- Witness for C1: the sample environment buffers exactly `sampleListing`,
which the theorem traces back to its accepting detail page. -/
theorem c1_witness :
    (0 < sampleListing.price ∧
      hasPrivateKeyword detailResponse.doc.fullText = true) ∧
    (sampleListing ∈ startedState.found_listings ∨
      (0 < sampleListing.price ∧
        ∃ u r, sampleEnv u = some r ∧ r.status = 200 ∧
          hasPrivateKeyword r.doc.fullText = true ∧
          build_listing "eigentumswohnung-wien" u "T0" r = some sampleListing)) := by
  constructor
  · exact c1_accepted_listing_invariant.1 "eigentumswohnung-wien" detailUrl "T0"
      detailResponse sampleListing rfl
  · refine c1_accepted_listing_invariant.2 sampleEnv "T0" startedState
      "eigentumswohnung-wien" searchBase sampleListing ?_
    have hfl : (scan_category sampleEnv "T0" startedState "eigentumswohnung-wien"
        searchBase).1.found_listings = [sampleListing] := rfl
    rw [hfl]
    exact List.mem_singleton_self _

/-- Appending strings concatenates their character lists. -/
lemma strToList_append (s t : String) : (s ++ t).toList = s.toList ++ t.toList := by
  cases s
  cases t
  rfl

/-- A list is a prefix of itself followed by anything. -/
lemma isPrefixL_self_append : ∀ p t : List Char, isPrefixL p (p ++ t) = true := by
  intro p
  induction p with
  | nil => intro t; rfl
  | cons c cs ih => intro t; simp [isPrefixL, ih]

/-- A substring of `t` is a substring of `s ++ t`. -/
lemma containsL_append_left (pat : List Char) :
    ∀ s t : List Char, containsL pat t = true → containsL pat (s ++ t) = true := by
  intro s
  induction s with
  | nil => intro t h; exact h
  | cons c cs ih =>
    intro t h
    rw [List.cons_append, containsL, Bool.or_eq_true]
    exact Or.inr (ih t h)

/-- `addUrl` preserves the no-duplicates invariant of the URL set. -/
lemma addUrl_nodup {acc : List String} {u : String} (h : acc.Nodup) :
    (addUrl acc u).Nodup := by
  unfold addUrl
  split
  · exact h
  · next hu => simp [List.nodup_append, h, hu]

/-- Membership in `addUrl acc u` is membership in `acc` or equality with `u`. -/
lemma mem_addUrl {acc : List String} {u v : String} (h : v ∈ addUrl acc u) :
    v ∈ acc ∨ v = u := by
  unfold addUrl at h
  split at h
  · exact Or.inl h
  · rcases List.mem_append.mp h with h1 | h2
    · exact Or.inl h1
    · exact Or.inr (List.mem_singleton.mp h2)

/-- Every URL reaching the set passed the fragment filter; it is either the
origin-prefixed form of a root-relative href or a non-root-relative href kept
verbatim. -/
lemma goodUrl_of_step {a : Anchor} (hfrag : strContains a.href listingFragment = true) :
    strContains (normUrl a.href) listingFragment = true ∧
    (strStartsWith (normUrl a.href) originUrl = true ∨
      (a.href = normUrl a.href ∧ strStartsWith a.href "/" = false)) := by
  unfold normUrl
  split
  · constructor
    · unfold strContains at hfrag ⊢
      rw [strToList_append]
      exact containsL_append_left _ _ _ hfrag
    · left
      unfold strStartsWith
      rw [strToList_append]
      exact isPrefixL_self_append _ _
  · next hns =>
    exact ⟨hfrag, Or.inr ⟨rfl, Bool.not_eq_true _ ▸ hns⟩⟩

/-- Invariant of the URL-collection fold of `parse_listings_page`. -/
lemma discover_fold_inv (anchors : List Anchor) :
    ∀ (links : List Anchor) (acc : List String),
      (∀ a ∈ links, a ∈ anchors) → acc.Nodup →
      (∀ u ∈ acc,
        strContains u listingFragment = true ∧
        (strStartsWith u originUrl = true ∨
          ∃ a, a ∈ anchors ∧ a.href = u ∧ strStartsWith a.href "/" = false)) →
      (links.foldl
          (fun acc a =>
            if strContains a.href listingFragment then addUrl acc (normUrl a.href)
            else acc) acc).Nodup ∧
      (∀ u ∈ links.foldl
          (fun acc a =>
            if strContains a.href listingFragment then addUrl acc (normUrl a.href)
            else acc) acc,
        strContains u listingFragment = true ∧
        (strStartsWith u originUrl = true ∨
          ∃ a, a ∈ anchors ∧ a.href = u ∧ strStartsWith a.href "/" = false)) := by
  intro links
  induction links with
  | nil => intro acc _ hnd hQ; exact ⟨hnd, hQ⟩
  | cons a rest ih =>
    intro acc hl hnd hQ
    rw [List.foldl_cons]
    by_cases hfrag : strContains a.href listingFragment = true
    · rw [if_pos hfrag]
      refine ih _ (fun x hx => hl x (List.mem_cons_of_mem _ hx)) (addUrl_nodup hnd) ?_
      intro u hu
      rcases mem_addUrl hu with h1 | h2
      · exact hQ u h1
      · subst h2
        obtain ⟨hf, hd⟩ := goodUrl_of_step hfrag
        refine ⟨hf, ?_⟩
        rcases hd with h | ⟨heq, hns⟩
        · exact Or.inl h
        · exact Or.inr ⟨a, hl a (List.mem_cons_self _ _), heq, hns⟩
    · rw [if_neg hfrag]
      exact ih _ (fun x hx => hl x (List.mem_cons_of_mem _ hx)) hnd hQ

/-- The three selector result lists only contain anchors of the page. -/
lemma mem_selLinks {page : SearchPage} {a : Anchor} (h : a ∈ selLinks page) :
    a ∈ page.anchors := by
  unfold selLinks at h
  rcases List.mem_append.mp h with h12 | h3
  · rcases List.mem_append.mp h12 with h1 | h2
    · exact (List.mem_filter.mp h1).1
    · exact (List.mem_filter.mp h2).1
  · exact (List.mem_filter.mp h3).1

/-- C7 as amended: the Discoverer's output never contains duplicates, every
URL in it contains the listing-path fragment, and every URL either begins
with the fixed origin (every root-relative href is absolutized) or is the
verbatim href of an anchor that did not start with `/` — absoluteness is
guaranteed only in the first case, which refutes the original claim's
unconditional absoluteness (see the counterexample). -/
theorem c7_discoverer_output (page : SearchPage) :
    (discoverUrls page).Nodup ∧
    ∀ u ∈ discoverUrls page,
      strContains u listingFragment = true ∧
      (strStartsWith u originUrl = true ∨
        ∃ a, a ∈ page.anchors ∧ a.href = u ∧ strStartsWith a.href "/" = false) := by
  exact discover_fold_inv page.anchors (selLinks page) []
    (fun a ha => mem_selLinks ha) List.nodup_nil (by simp)

/-- Spec notion of an absolute URL: one carrying an http(s) scheme. -/
def isAbsoluteUrl (u : String) : Bool :=
  strStartsWith u "http://" || strStartsWith u "https://"

/-- Page whose single anchor has a relative href that does not start with a
slash. -/
def noSlashPage : SearchPage := ⟨[⟨"x/iad/immobilien/d/A", none, false⟩]⟩

/-- Counterexample to C7: an href containing the fragment but not starting
with `/` is kept verbatim, so the output contains a non-absolute URL. -/
theorem c7_counterexample :
    "x/iad/immobilien/d/A" ∈ discoverUrls noSlashPage ∧
    isAbsoluteUrl "x/iad/immobilien/d/A" = false := by
  refine ⟨by decide, by decide⟩

/-- Witness for C7 at the two-anchor scenario page. -/
theorem c7_witness :
    (discoverUrls queryScenarioPage).Nodup ∧
    (strContains "https://www.willhaben.at/iad/immobilien/d/AAA" listingFragment = true ∧
      (strStartsWith "https://www.willhaben.at/iad/immobilien/d/AAA" originUrl = true ∨
        ∃ a, a ∈ queryScenarioPage.anchors
          ∧ a.href = "https://www.willhaben.at/iad/immobilien/d/AAA"
          ∧ strStartsWith a.href "/" = false)) :=
  ⟨(c7_discoverer_output queryScenarioPage).1,
   (c7_discoverer_output queryScenarioPage).2 _ (by decide)⟩
